import Mathlib

/-!
Shallow embedding of `src/lp.rs` (humble-ledger's listening-party module).

Modelling conventions:
* `chrono::Duration` and `chrono::DateTime<Utc>` are modelled as `Int`
  milliseconds (sub-second resolution, signed, totally ordered);
  `Duration::num_seconds` truncates toward zero, which is `Int.tdiv _ 1000`.
* Rust `i64` `/` and `%` truncate toward zero: `Int.tdiv` / `Int.tmod`.
* The shared `HashMap<ChannelId, LPInfo>` behind the `RwLock` is modelled
  extensionally as a function `ChannelId → Option LPInfo`; the lock itself is
  a concurrency artefact outside the shallow embedding.
* The Spotify client (`C: BaseClient`) is an external capability: it is passed
  in as oracle functions, and the track stream of `album_track` is a list of
  per-item results, as `try_collect` observes it.
* `Utc::now()` is passed explicitly as the current instant.
-/

abbrev ChannelId := Nat
abbrev RoleId := Nat

/-- Models `chrono::Duration::num_seconds`: whole seconds, truncating toward zero. -/
def numSeconds (d : Int) : Int := Int.tdiv d 1000

/-- The `struct TrackInfo` of `lp.rs`. -/
structure TrackInfo where
  number : Nat
  name : String
  uri : Option String
  duration : Int
deriving DecidableEq, Repr

/-- The `struct AlbumInfo` of `lp.rs`. -/
structure AlbumInfo where
  artist : String
  name : String
  uri : Option String
  tracks : List TrackInfo
deriving DecidableEq, Repr

/-- The `struct LPInfo` of `lp.rs`. -/
structure LPInfo where
  playlist : AlbumInfo
  started : Option Int
deriving DecidableEq, Repr

/-- The `enum PlayState` of `lp.rs`; the borrowed `&TrackInfo` becomes an owned
copy of the track record. -/
inductive PlayState where
  | NotStarted
  | Finished (ago : Int)
  | Playing (track : TrackInfo) (position : Int)
deriving DecidableEq, Repr

/-- The `for track in self.playlist.tracks.iter()` loop body of
`LPInfo::now_playing`: walk the tracks, at each step either answering
`Playing` (strict `track.duration > remain`) or subtracting the duration. -/
def walkTracks : Int → List TrackInfo → PlayState
  | remain, [] => .Finished remain
  | remain, track :: rest =>
    if track.duration > remain then .Playing track remain
    else walkTracks (remain - track.duration) rest

/-- Models `LPInfo::now_playing` of `lp.rs`, with `Utc::now()` passed explicitly.
The future-started branch also logs to stderr in the source; logging is not
modelled. -/
def nowPlaying (lp : LPInfo) (now : Int) : PlayState :=
  match lp.started with
  | none => .NotStarted
  | some started =>
    if started > now then .NotStarted
    else walkTracks (now - started) lp.playlist.tracks

/-- Rust `format!` padding spec `0>2`: pad the rendered string on the left
with the fill character `0` up to width 2. -/
def padZero2 (s : String) : String :=
  String.mk (List.replicate (2 - s.length) '0') ++ s

/-- Models `display_duration` of `lp.rs`. Rust `i64` `/` and `%` truncate toward
zero (`Int.tdiv` / `Int.tmod`), and `i64`'s `Display` is decimal with a leading
minus for negatives (`Int.repr`). -/
def displayDuration (duration : Int) : String :=
  let allsecs := numSeconds duration
  let seconds := Int.tmod allsecs 60
  let minutes := Int.tmod (Int.tdiv allsecs 60) 60
  let hours := Int.tdiv allsecs 3600
  if hours > 0 then
    Int.repr hours ++ ":" ++ padZero2 (Int.repr minutes) ++ ":" ++ padZero2 (Int.repr seconds)
  else
    padZero2 (Int.repr minutes) ++ ":" ++ padZero2 (Int.repr seconds)

/-!
## The announcement regex

`SPOTIFY_ALBUM_RE = "\bhttps://open.spotify.com/album/([a-zA-Z0-9]+)(?:\?[a-zA-Z?=&]*)\b"`

The `regex` crate searches for the leftmost match (`captures` = first match by
start position).  We embed this one concrete pattern:
* `\b` is a word boundary: exactly one neighbour is a word character
  (`[0-9A-Za-z_]` on ASCII text; string ends count as non-word);
* the literal `https://open.spotify.com/album/` contains two unescaped `.`
  metacharacters, each matching any character except a newline;
* group 1 is `[a-zA-Z0-9]+`, greedy.  Since `?` is not alphanumeric, a match
  continues past the group iff the *maximal* alphanumeric run is followed by a
  literal `?`; the capture is therefore exactly that maximal run, independent
  of any other backtracking;
* `(?:\?[a-zA-Z?=&]*)` is *not* optional: a literal `?` must be present;
* the trailing `\b` succeeds iff *some* prefix (any length up to the maximal
  `[a-zA-Z?=&]` run) of the text after the `?` ends at a word boundary; which
  prefix the greedy engine picks does not affect group 1, so we only test
  existence.
-/

/-- ASCII word character, for `\b` (`[0-9A-Za-z_]`). -/
def wordChar (c : Char) : Bool :=
  ('0' ≤ c && c ≤ '9') || ('a' ≤ c && c ≤ 'z') || ('A' ≤ c && c ≤ 'Z') || c == '_'

/-- The character class `[a-zA-Z0-9]` of the capture group. -/
def isAlnumAscii (c : Char) : Bool :=
  ('0' ≤ c && c ≤ '9') || ('a' ≤ c && c ≤ 'z') || ('A' ≤ c && c ≤ 'Z')

/-- The character class `[a-zA-Z?=&]` of the query part (note: no digits). -/
def queryChar (c : Char) : Bool :=
  ('a' ≤ c && c ≤ 'z') || ('A' ≤ c && c ≤ 'Z') || c == '?' || c == '=' || c == '&'

/-- One literal-pattern element: an exact character, or `.` (any char but
newline). -/
inductive LitPat where
  | exact (c : Char)
  | anyChar
deriving DecidableEq, Repr

/-- The literal part `https://open.spotify.com/album/` of the regex, with the
two unescaped dots as `anyChar`. -/
def albumLinkLit : List LitPat :=
  [.exact 'h', .exact 't', .exact 't', .exact 'p', .exact 's', .exact ':',
   .exact '/', .exact '/',
   .exact 'o', .exact 'p', .exact 'e', .exact 'n', .anyChar,
   .exact 's', .exact 'p', .exact 'o', .exact 't', .exact 'i', .exact 'f',
   .exact 'y', .anyChar,
   .exact 'c', .exact 'o', .exact 'm',
   .exact '/', .exact 'a', .exact 'l', .exact 'b', .exact 'u', .exact 'm',
   .exact '/']

/-- Match a literal pattern against a prefix of `s`, returning the rest. -/
def matchLit : List LitPat → List Char → Option (List Char)
  | [], s => some s
  | _ :: _, [] => none
  | .exact c :: ps, x :: xs => if x == c then matchLit ps xs else none
  | .anyChar :: ps, x :: xs => if x == '\n' then none else matchLit ps xs

/-- Word-character test with string ends counting as non-word. -/
def isWordOpt : Option Char → Bool
  | none => false
  | some c => wordChar c

/-- The boundary `\b` holds between `prev` and `next` iff exactly one side is a word
character. -/
def boundaryOk (prev next : Option Char) : Bool :=
  isWordOpt prev != isWordOpt next

/-- After the literal `?` has been consumed, `(?:[a-zA-Z?=&]*)\b` succeeds iff
a word boundary occurs after consuming some (possibly empty) run of
`queryChar`s: test the boundary here, or consume one more `queryChar` and
recurse. -/
def qStarBoundary (prev : Char) : List Char → Bool
  | [] => boundaryOk (some prev) none
  | c :: cs => boundaryOk (some prev) (some c) || (queryChar c && qStarBoundary c cs)

/-- Matches `([a-zA-Z0-9]+)(?:\?[a-zA-Z?=&]*)\b` on the text after the literal,
split as (maximal alphanumeric run, rest): the run must be non-empty and
followed by a literal `?`, and the query-star-plus-boundary must succeed. -/
def matchIdSplit : List Char → List Char → Option (List Char)
  | [], _ => none
  | idChars, '?' :: afterQ =>
    if qStarBoundary '?' afterQ then some idChars else none
  | _, _ => none

/-- Try to match the whole regex starting exactly at this position (`prev` is
the character just before the position, if any); on success return the
characters of capture group 1. -/
def matchFrom (prev : Option Char) (s : List Char) : Option (List Char) :=
  if boundaryOk prev s.head? then
    Option.bind (matchLit albumLinkLit s)
      (fun rest => matchIdSplit (rest.takeWhile isAlnumAscii) (rest.dropWhile isAlnumAscii))
  else none

/-- Leftmost-match search: try each start position left to right and return
the first capture, as `Regex::captures` does. -/
def findCapture : Option Char → List Char → Option (List Char)
  | prev, [] =>
    match matchFrom prev [] with
    | some cap => some cap
    | none => none
  | prev, c :: cs =>
    match matchFrom prev (c :: cs) with
    | some cap => some cap
    | none => findCapture (some c) cs

/-- Models `Regex::new(SPOTIFY_ALBUM_RE).unwrap().captures(text)` restricted to what
`handle_message` uses: group 1 (`&caps[1]`) of the leftmost match, if any. -/
def spotifyCaptures (text : String) : Option String :=
  (findCapture none text.toList).map String.mk

/-- The characters of the regex's literal part, as they appear in a link. -/
def albumLinkChars : List Char := "https://open.spotify.com/album/".toList

/-- The character preceding the end of `prev`-then-`l` (the last character of
`l`, or `prev` when `l` is empty). -/
def lastCh (prev : Option Char) : List Char → Option Char
  | [] => prev
  | c :: cs => lastCh (some c) cs

/-!
## Party registry and message handling
-/

/-- The shared `HashMap<ChannelId, LPInfo>`, extensionally. -/
def Registry := ChannelId → Option LPInfo

/-- Models `lps.get(&channel)` — the read-only lookup used by the `lp` command. -/
def Registry.lookup (r : Registry) (c : ChannelId) : Option LPInfo := r c

/-- The registry write of `LP::handle_message` (lines 274–282):
`channels.insert(msg.channel_id, LPInfo { playlist: album, started: None })` —
an unconditional insert/overwrite with `started = None`. -/
def recordAnnouncement (r : Registry) (c : ChannelId) (album : AlbumInfo) : Registry :=
  fun ch => if ch = c then some ⟨album, none⟩ else r ch

/-- Models `LP::start_lp`: `channels.entry(*channel).and_modify(|lp| lp.started = Some(now))` —
modify the record if present, insert nothing otherwise. -/
def signalStart (r : Registry) (c : ChannelId) (now : Int) : Registry :=
  fun ch =>
    if ch = c then (r c).map (fun lp => ⟨lp.playlist, some now⟩) else r ch

/-- An inbound Discord message, restricted to the fields `handle_message`
reads: `content`, `mention_roles`, `channel_id`. -/
structure Msg where
  content : String
  mention_roles : List RoleId
  channel_id : ChannelId

/-- The `LP_ROLES` constant of `lp.rs`. -/
def LP_ROLES : List RoleId := [1198354637137391709]

/-- The fetch-result half of `handle_message`'s `match`: a failed fetch is
logged and dropped (no state change), a successful one overwrites the
channel's record. -/
def handleFetch (channel : ChannelId) (r : Registry) (albumId : String) :
    Except String AlbumInfo → Registry × List String
  | .error _ => (r, [albumId])
  | .ok album => (recordAnnouncement r channel album, [albumId])

/-- The capture half of `handle_message`'s `match`: no regex match means no
action; a match hands the captured id to the fetcher. -/
def handleCapture (fetch : String → Except String AlbumInfo)
    (channel : ChannelId) (r : Registry) : Option String → Registry × List String
  | none => (r, [])
  | some albumId => handleFetch channel r albumId (fetch albumId)

/-- Models `LP::handle_message`, with the album fetch as an oracle (the source is
generic over `C: BaseClient`).  Besides the updated registry we return the
list of album identifiers passed to `fetch_album_info`, to make "no fetch
happens" / "exactly this identifier is fetched" observable. -/
def handleMessage (fetch : String → Except String AlbumInfo) (msg : Msg)
    (r : Registry) : Registry × List String :=
  if msg.mention_roles.any (fun role => LP_ROLES.contains role) then
    handleCapture fetch msg.channel_id r (spotifyCaptures msg.content)
  else (r, [])

/-!
## Album fetcher
-/

/-- The album-summary payload of `client.album`, restricted to the fields
`fetch_album_info` reads (`external_urls.get("spotify")` is pre-extracted). -/
structure RemoteAlbum where
  artists : List String
  name : String
  uri : Option String
deriving DecidableEq, Repr

/-- One item of the `client.album_track` stream, restricted to the fields
`fetch_album_info` reads. -/
structure RemoteTrack where
  track_number : Nat
  name : String
  duration : Int
  uri : Option String
deriving DecidableEq, Repr

/-- Modelled from the spec: the identifier validation performed by rspotify's
`AlbumId::from_id` is external-library code, not part of this repository; the
spec says the identifier is an alphanumeric run and that malformed input fails
with an `InvalidIdentifier` condition before any fetch. -/
def validAlbumId (s : String) : Bool :=
  s.length != 0 && s.toList.all isAlnumAscii

/-- Models `AlbumId::from_id(album_id_str).context("trying to parse album ID")`,
with validity modelled by `validAlbumId`. -/
def parseAlbumId (s : String) : Except String String :=
  if validAlbumId s then .ok s else .error "trying to parse album ID"

/-- Models `try_collect` over the mapped track stream: the first failing item fails
the whole collection; otherwise every item is mapped into a `TrackInfo` in
stream order. -/
def collectTracks : List (Except String RemoteTrack) → Except String (List TrackInfo)
  | [] => .ok []
  | .error e :: _ => .error e
  | .ok t :: rest =>
    match collectTracks rest with
    | .error e => .error e
    | .ok ts => .ok (⟨t.track_number, t.name, t.uri, t.duration⟩ :: ts)

/-- Models `fetch_album_info` of `lp.rs`, with the two remote calls of the
`BaseClient` as oracles.  The second component counts the remote calls made
(0 = failed before any fetch, 1 = after the album call, 2 = after the track
call), so "fails before any fetch call" is observable. -/
def fetchAlbumInfo (fetchAlbum : String → Except String RemoteAlbum)
    (fetchTracks : String → List (Except String RemoteTrack))
    (album_id_str : String) : Except String AlbumInfo × Nat :=
  match parseAlbumId album_id_str with
  | .error e => (.error e, 0)
  | .ok album_id =>
    match fetchAlbum album_id with
    | .error e => (.error ("fetching album: " ++ e), 1)
    | .ok album =>
      let artists := String.intercalate ", " album.artists
      match collectTracks (fetchTracks album_id) with
      | .error e => (.error e, 2)
      | .ok tracks => (.ok ⟨artists, album.name, album.uri, tracks⟩, 2)

/-- A plain boolean success discriminator for `Except`. -/
def exceptOk {α : Type} (e : Except String α) : Bool :=
  match e with
  | .ok _ => true
  | .error _ => false

/-!
## Spec-side definitions (for refinement comparisons)
-/

/-- Spec-side resolver walk, following the spec's words: "for each track, if
`remaining < track.duration`, the current track and `position = remaining` is
the answer (`Playing`); otherwise subtract `track.duration` from `remaining`
and continue"; exhausting all tracks gives `Finished(remaining)`. -/
def walkSpec : Int → List TrackInfo → PlayState
  | remaining, [] => .Finished remaining
  | remaining, track :: rest =>
    if remaining < track.duration then .Playing track remaining
    else walkSpec (remaining - track.duration) rest

/-- Spec-side resolver, following the spec's words: absent `started_at` or a
future `started_at` give `NotStarted`, else walk with
`remaining = now - started_at`. -/
def nowPlayingSpec (tracks : List TrackInfo) (started : Option Int)
    (now : Int) : PlayState :=
  match started with
  | none => .NotStarted
  | some st => if st > now then .NotStarted else walkSpec (now - st) tracks

/-- Spec-side formatter, following the spec's words: with `T` the whole
seconds, `s = T mod 60`, `m = (T / 60) mod 60`, `h = T / 3600`, render
"h:mm:ss" when `h > 0` else "mm:ss", minutes and seconds zero-padded to
width 2 and hours unpadded. -/
def displayDurationSpec (T : Nat) : String :=
  let s := T % 60
  let m := T / 60 % 60
  let h := T / 3600
  if h > 0 then
    Nat.repr h ++ ":" ++ padZero2 (Nat.repr m) ++ ":" ++ padZero2 (Nat.repr s)
  else
    padZero2 (Nat.repr m) ++ ":" ++ padZero2 (Nat.repr s)

/-!
## Panic-explicit formatter (for the no-panic claim)

Rust `i64` `/` and `%` panic on a zero divisor and on `i64::MIN / -1`
overflow; everything else in `display_duration` (the `format!` machinery and
`num_seconds`) is total.  The checked variant returns `none` exactly where
the Rust code would panic.
-/

def i64Min : Int := -(2 ^ 63)

/-- Rust `i64` division with its panic conditions made explicit. -/
def checkedTdiv (a b : Int) : Option Int :=
  if b = 0 ∨ (a = i64Min ∧ b = -1) then none else some (Int.tdiv a b)

/-- Rust `i64` remainder with its panic conditions made explicit. -/
def checkedTmod (a b : Int) : Option Int :=
  if b = 0 ∨ (a = i64Min ∧ b = -1) then none else some (Int.tmod a b)

/-- Models `display_duration` with every Rust arithmetic panic site explicit. -/
def displayDurationChecked (duration : Int) : Option String := do
  let allsecs := numSeconds duration
  let seconds ← checkedTmod allsecs 60
  let minutesAll ← checkedTdiv allsecs 60
  let minutes ← checkedTmod minutesAll 60
  let hours ← checkedTdiv allsecs 3600
  some (if hours > 0 then
    Int.repr hours ++ ":" ++ padZero2 (Int.repr minutes) ++ ":" ++ padZero2 (Int.repr seconds)
  else
    padZero2 (Int.repr minutes) ++ ":" ++ padZero2 (Int.repr seconds))

/-!
## Sample values (used by witnesses and counterexamples)
-/

/-- Total playlist duration, as summed by the `lp` command
(`tracks.iter().map(|t| t.duration).sum()`); also the spec's "cumulative
duration" of a track prefix. -/
def sumDur (ts : List TrackInfo) : Int :=
  ts.foldr (fun t acc => t.duration + acc) 0

def trackA : TrackInfo := ⟨1, "one", none, 60000⟩
def trackB : TrackInfo := ⟨2, "two", none, 60000⟩
def trackZero : TrackInfo := ⟨2, "zero", none, 0⟩
def trackC : TrackInfo := ⟨3, "three", none, 60000⟩

/-- A two-track album with durations 60s and 60s. -/
def albumTwo : AlbumInfo := ⟨"Artist", "Album", none, [trackA, trackB]⟩

/-- A degenerate album whose middle track has duration 0. -/
def albumWithZero : AlbumInfo := ⟨"Artist", "Album", none, [trackA, trackZero, trackC]⟩

def sampleLP : LPInfo := ⟨albumTwo, none⟩

/-- A fetch oracle that always fails (any concrete oracle works for the
detector-level statements). -/
def fetchFail : String → Except String AlbumInfo := fun _ => .error "network error"

/-- The empty registry. -/
def emptyRegistry : Registry := fun _ => none

/-- A registry holding `sampleLP` in every channel. -/
def fullRegistry : Registry := fun _ => some sampleLP

/-- A trusted-role message whose text is a bare album link (no query string). -/
def msgBare : Msg :=
  ⟨"https://open.spotify.com/album/ABC123", [1198354637137391709], 7⟩

/-- A message containing a valid album link but no trusted role mention. -/
def msgUntrusted : Msg :=
  ⟨"https://open.spotify.com/album/ABC123?si=xyz", [42], 7⟩

/-- A trusted-role message with a query-carrying album link and some leading
text. -/
def msgTrusted : Msg :=
  ⟨"LP: https://open.spotify.com/album/ABC123?si=xyz", [1198354637137391709], 7⟩

def remoteAlbumSample : RemoteAlbum :=
  ⟨["Artist A", "Artist B"], "Album", some "https://spotify/album/xyz"⟩

def remoteTrackSample : RemoteTrack := ⟨1, "one", 60000, none⟩

/-- An album-summary oracle that always succeeds. -/
def fetchAlbumOk : String → Except String RemoteAlbum := fun _ => .ok remoteAlbumSample

/-- A track-stream oracle whose single item succeeds. -/
def fetchTracksOk : String → List (Except String RemoteTrack) :=
  fun _ => [.ok remoteTrackSample]

/-- The album `fetchAlbumOk`/`fetchTracksOk` produce. -/
def albumFetched : AlbumInfo :=
  ⟨"Artist A, Artist B", "Album", some "https://spotify/album/xyz",
   [⟨1, "one", none, 60000⟩]⟩

/-!
## Theorems
-/

example : displayDuration 0 = "00:00" := by decide
example : displayDuration 61000 = "01:01" := by decide
example : displayDuration 3661000 = "1:01:01" := by decide
example : displayDuration (-61000) = "-1:-1" := by decide

example : spotifyCaptures "https://open.spotify.com/album/ABC123?si=xyz" = some "ABC123" := by decide
example : spotifyCaptures "check this https://open.spotify.com/album/ABC123?si=q out" = some "ABC123" := by decide
example : spotifyCaptures "https://open.spotify.com/album/ABC123?" = none := by decide
example : spotifyCaptures "no link here" = none := by decide

/-- C3: a later announcement fully overwrites the prior record for that
channel: after two `record_announcement`s on the same channel, the lookup
returns the second album with `started_at = None`, whatever the registry
held before (including any previously set start timestamp). -/
theorem record_announcement_overwrites
    (r : Registry) (c : ChannelId) (a1 a2 : AlbumInfo) :
    Registry.lookup (recordAnnouncement (recordAnnouncement r c a1) c a2) c
      = some ⟨a2, none⟩ := by
  simp [Registry.lookup, recordAnnouncement]

/-- C6: `signal_start` on a channel with no record is a no-op (the lookup
stays absent); on a channel with a record it sets that record's `started_at`
to `now` and keeps the playlist. -/
theorem signal_start_absent_noop (r : Registry) (c : ChannelId) (now : Int) :
    (Registry.lookup r c = none →
      Registry.lookup (signalStart r c now) c = none)
    ∧ (∀ lp, Registry.lookup r c = some lp →
        Registry.lookup (signalStart r c now) c = some ⟨lp.playlist, some now⟩) := by
  constructor
  · intro h
    simp [Registry.lookup, signalStart] at h ⊢
    simp [h]
  · intro lp h
    simp [Registry.lookup, signalStart] at h ⊢
    simp [h]

/-- C6 witness: concrete instances of both branches. -/
theorem signal_start_absent_noop_witness :
    Registry.lookup (signalStart emptyRegistry 3 1000) 3 = none
    ∧ Registry.lookup (signalStart fullRegistry 3 1000) 3
        = some ⟨sampleLP.playlist, some 1000⟩ :=
  ⟨(signal_start_absent_noop emptyRegistry 3 1000).1 rfl,
   (signal_start_absent_noop fullRegistry 3 1000).2 sampleLP rfl⟩

/-- C7: with `started_at` absent the resolver returns `NotStarted` whatever
the playlist holds, and with `started_at` in the future it also returns
`NotStarted` (the source additionally logs a diagnostic on that branch). -/
theorem now_playing_not_started (lp : LPInfo) (now : Int) :
    (lp.started = none → nowPlaying lp now = .NotStarted)
    ∧ (∀ st, lp.started = some st → st > now → nowPlaying lp now = .NotStarted) := by
  constructor
  · intro h
    simp [nowPlaying, h]
  · intro st h hgt
    simp [nowPlaying, h, hgt]

/-- C7 witness: a never-started record and a future-started record, both
resolving to `NotStarted`. -/
theorem now_playing_not_started_witness :
    nowPlaying ⟨albumTwo, none⟩ 5 = .NotStarted
    ∧ nowPlaying ⟨albumTwo, some 10⟩ 5 = .NotStarted :=
  ⟨(now_playing_not_started ⟨albumTwo, none⟩ 5).1 rfl,
   (now_playing_not_started ⟨albumTwo, some 10⟩ 5).2 10 rfl (by decide)⟩

/-- C5: a message whose role mentions do not intersect `LP_ROLES` triggers no
fetch and leaves the registry untouched, whatever its text contains. -/
theorem untrusted_message_ignored
    (fetch : String → Except String AlbumInfo) (msg : Msg) (r : Registry)
    (h : ∀ ρ ∈ msg.mention_roles, ρ ∉ LP_ROLES) :
    handleMessage fetch msg r = (r, []) := by
  have hgate : msg.mention_roles.any (fun role => LP_ROLES.contains role) = false := by
    rw [List.any_eq_false]
    intro ρ hρ
    simpa using h ρ hρ
  unfold handleMessage
  rw [hgate]
  simp

/-- C5 witness: a message containing a valid album link but mentioning only
an untrusted role changes nothing and fetches nothing. -/
theorem untrusted_message_ignored_witness :
    handleMessage fetchFail msgUntrusted emptyRegistry = (emptyRegistry, []) :=
  untrusted_message_ignored fetchFail msgUntrusted emptyRegistry (by decide)

/-- C9: `display_duration` never panics, on negative spans included: the
variant with every Rust arithmetic panic site made explicit returns a string
for every input, and that string is `displayDuration`'s. -/
theorem display_duration_total (d : Int) :
    displayDurationChecked d = some (displayDuration d) := by
  have h60 : ¬ ((60 : Int) = 0 ∨ (numSeconds d = i64Min ∧ (60 : Int) = -1)) := by
    push_neg
    refine ⟨by decide, fun _ => by decide⟩
  have h60b : ¬ ((60 : Int) = 0 ∨ (Int.tdiv (numSeconds d) 60 = i64Min ∧ (60 : Int) = -1)) := by
    push_neg
    refine ⟨by decide, fun _ => by decide⟩
  have h3600 : ¬ ((3600 : Int) = 0 ∨ (numSeconds d = i64Min ∧ (3600 : Int) = -1)) := by
    push_neg
    refine ⟨by decide, fun _ => by decide⟩
  simp [displayDurationChecked, displayDuration, checkedTdiv, checkedTmod,
    h60, h60b, h3600]

/-- The source's track walk agrees with the spec's wording of the walk
(`track.duration > remain` versus `remaining < track.duration`). -/
theorem walkTracks_eq_walkSpec (ts : List TrackInfo) :
    ∀ remain, walkTracks remain ts = walkSpec remain ts := by
  induction ts with
  | nil => intro remain; rfl
  | cons t rest ih =>
    intro remain
    simp only [walkTracks, walkSpec, gt_iff_lt, ih]

/-- C2: on a playlist of 60s and 60s tracks, 90s of elapsed time resolve to
the second track at 30s, and 200s resolve to `Finished(80s)`; in general the
resolver is exactly the spec's walk (subtract each passed track's duration,
answer `Playing` at the first track whose duration exceeds the remainder).
Times are in milliseconds. -/
theorem resolver_walk (now : Int) :
    nowPlaying ⟨albumTwo, some (now - 90000)⟩ now = .Playing trackB 30000
    ∧ nowPlaying ⟨albumTwo, some (now - 200000)⟩ now = .Finished 80000
    ∧ ∀ (lp : LPInfo) (t : Int),
        nowPlaying lp t = nowPlayingSpec lp.playlist.tracks lp.started t := by
  refine ⟨?_, ?_, ?_⟩
  · show nowPlaying ⟨albumTwo, some (now - 90000)⟩ now = .Playing trackB 30000
    simp only [nowPlaying]
    rw [if_neg (by omega), show now - (now - 90000) = 90000 by omega]
    decide
  · show nowPlaying ⟨albumTwo, some (now - 200000)⟩ now = .Finished 80000
    simp only [nowPlaying]
    rw [if_neg (by omega), show now - (now - 200000) = 200000 by omega]
    decide
  · intro lp t
    unfold nowPlaying nowPlayingSpec
    cases lp.started with
    | none => rfl
    | some st =>
      dsimp only
      rw [walkTracks_eq_walkSpec]

theorem tdiv_coe_1000 (a : Nat) : Int.tdiv (a : Int) 1000 = ((a / 1000 : Nat) : Int) := rfl
theorem tdiv_coe_60 (a : Nat) : Int.tdiv (a : Int) 60 = ((a / 60 : Nat) : Int) := rfl
theorem tmod_coe_60 (a : Nat) : Int.tmod (a : Int) 60 = ((a % 60 : Nat) : Int) := rfl
theorem tdiv_coe_3600 (a : Nat) : Int.tdiv (a : Int) 3600 = ((a / 3600 : Nat) : Int) := rfl
theorem repr_coe (n : Nat) : Int.repr (n : Int) = Nat.repr n := rfl

/-- C8: the formatter's examples, and on every non-negative whole-second span
(given in milliseconds) the formatter renders exactly the spec's
"h:mm:ss"/"mm:ss" with zero-padded minutes and seconds. -/
theorem display_duration_renders :
    displayDuration 0 = "00:00"
    ∧ displayDuration 61000 = "01:01"
    ∧ displayDuration 3661000 = "1:01:01"
    ∧ ∀ T : Nat, displayDuration ((T : Int) * 1000) = displayDurationSpec T := by
  refine ⟨by decide, by decide, by decide, fun T => ?_⟩
  have hall : numSeconds ((T : Int) * 1000) = (T : Int) := by
    unfold numSeconds
    rw [show ((T : Int) * 1000) = ((T * 1000 : Nat) : Int) by push_cast; ring,
      tdiv_coe_1000, Nat.mul_div_cancel T (by norm_num)]
  simp only [displayDuration, displayDurationSpec, hall, tmod_coe_60,
    tdiv_coe_60, tdiv_coe_3600, repr_coe]
  by_cases h : 0 < T / 3600
  · rw [if_pos (by exact_mod_cast h), if_pos h]
  · rw [if_neg (by exact_mod_cast h), if_neg h]

theorem sumDur_nonneg (ts : List TrackInfo) (h : ∀ t ∈ ts, 0 ≤ t.duration) :
    0 ≤ sumDur ts := by
  induction ts with
  | nil => simp [sumDur]
  | cons t rest ih =>
    have ht := h t (by simp)
    have hr := ih (fun x hx => h x (by simp [hx]))
    simp only [sumDur, List.foldr_cons] at hr ⊢
    omega

/-- Walking from a remainder equal to the summed durations of the first `k`
tracks answers track `k` at position 0 (all durations positive). -/
theorem walk_prefix_sum (ts : List TrackInfo) :
    ∀ k (hk : k < ts.length), (∀ t ∈ ts, 0 < t.duration) →
      walkTracks (sumDur (List.take k ts)) ts = .Playing (ts.get ⟨k, hk⟩) 0 := by
  induction ts with
  | nil => intro k hk; simp at hk
  | cons t rest ih =>
    intro k hk hpos
    have ht : 0 < t.duration := hpos t (by simp)
    cases k with
    | zero =>
      simp [sumDur, walkTracks, ht]
    | succ k =>
      have hrest : ∀ x ∈ rest, 0 < x.duration := fun x hx => hpos x (by simp [hx])
      have hnn : 0 ≤ sumDur (List.take k rest) :=
        sumDur_nonneg _ (fun x hx => le_of_lt (hrest x (List.take_subset _ _ hx)))
      have hk' : k < rest.length := by simpa using hk
      have hsum : sumDur (List.take (k + 1) (t :: rest))
          = t.duration + sumDur (List.take k rest) := by
        simp [sumDur]
      rw [hsum]
      simp only [walkTracks]
      rw [if_neg (by omega),
        show t.duration + sumDur (List.take k rest) - t.duration
          = sumDur (List.take k rest) by ring]
      exact ih k hk' hrest

/-- Walking from a remainder equal to the whole playlist duration finishes
with `Finished 0` (all durations non-negative). -/
theorem walk_total_sum (ts : List TrackInfo) :
    (∀ t ∈ ts, 0 ≤ t.duration) → walkTracks (sumDur ts) ts = .Finished 0 := by
  induction ts with
  | nil => intro _; simp [sumDur, walkTracks]
  | cons t rest ih =>
    intro h
    have hnn : 0 ≤ sumDur rest := sumDur_nonneg rest (fun x hx => h x (by simp [hx]))
    rw [show sumDur (t :: rest) = t.duration + sumDur rest by simp [sumDur]]
    simp only [walkTracks]
    rw [if_neg (by omega),
      show t.duration + sumDur rest - t.duration = sumDur rest by ring]
    exact ih (fun x hx => h x (by simp [hx]))

/-- C10 (amended): provided every track duration is positive, an elapsed time
equal to the cumulative duration of the first `k` tracks (`k` below the track
count) resolves to the `k+1`-st track at position 0, and an elapsed time equal
to the total playlist duration resolves to `Finished 0`. -/
theorem resolver_track_boundaries (ar al : String) (u : Option String)
    (ts : List TrackInfo) (started now : Int)
    (hpos : ∀ t ∈ ts, 0 < t.duration) :
    (∀ k (hk : k < ts.length), now - started = sumDur (List.take k ts) →
      nowPlaying ⟨⟨ar, al, u, ts⟩, some started⟩ now = .Playing (ts.get ⟨k, hk⟩) 0)
    ∧ (now - started = sumDur ts →
      nowPlaying ⟨⟨ar, al, u, ts⟩, some started⟩ now = .Finished 0) := by
  constructor
  · intro k hk he
    have hnn : 0 ≤ sumDur (List.take k ts) :=
      sumDur_nonneg _ (fun x hx => le_of_lt (hpos x (List.take_subset _ _ hx)))
    dsimp only [nowPlaying]
    rw [if_neg (by omega), he]
    exact walk_prefix_sum ts k hk hpos
  · intro he
    have hnn : 0 ≤ sumDur ts := sumDur_nonneg _ (fun x hx => le_of_lt (hpos x hx))
    dsimp only [nowPlaying]
    rw [if_neg (by omega), he]
    exact walk_total_sum ts (fun x hx => le_of_lt (hpos x hx))

/-- C10 counterexample: with a zero-duration second track, an elapsed time
equal to the first track's duration resolves to the *third* track at position
0 — not the second, as the claim (quantified over every non-empty playlist)
predicts. -/
theorem resolver_boundary_zero_duration :
    nowPlaying ⟨albumWithZero, some 0⟩ 60000 = .Playing trackC 0
    ∧ nowPlaying ⟨albumWithZero, some 0⟩ 60000 ≠ .Playing trackZero 0 := by
  constructor <;> decide

theorem collectTracks_ok_iff (items : List (Except String RemoteTrack)) :
    exceptOk (collectTracks items) = true
      ↔ items.all (fun i => exceptOk i) = true := by
  induction items with
  | nil => simp [collectTracks, exceptOk]
  | cons i rest ih =>
    cases i with
    | error e => simp [collectTracks, exceptOk]
    | ok t =>
      have hstep : exceptOk (collectTracks (.ok t :: rest)) = exceptOk (collectTracks rest) := by
        cases h : collectTracks rest <;> simp [collectTracks, h, exceptOk]
      rw [hstep, ih]
      simp [exceptOk]

/-- C4: the album fetcher is all-or-nothing: a malformed identifier fails
before any remote call (call count 0, for every pair of oracles); the result
is `ok` exactly when the identifier is valid, the album-summary call succeeds
and every item of the track stream succeeds; and a returned album is complete
— artist names joined with ", ", the album name and link, and the full
collected track list. -/
theorem fetch_album_all_or_nothing
    (fetchAlbum : String → Except String RemoteAlbum)
    (fetchTracks : String → List (Except String RemoteTrack))
    (s : String) :
    (validAlbumId s = false →
      fetchAlbumInfo fetchAlbum fetchTracks s = (.error "trying to parse album ID", 0))
    ∧ (exceptOk (fetchAlbumInfo fetchAlbum fetchTracks s).1 = true ↔
        (validAlbumId s = true ∧ exceptOk (fetchAlbum s) = true
          ∧ (fetchTracks s).all (fun i => exceptOk i) = true))
    ∧ (∀ a, (fetchAlbumInfo fetchAlbum fetchTracks s).1 = .ok a →
        ∃ ra, fetchAlbum s = .ok ra
          ∧ a.artist = String.intercalate ", " ra.artists
          ∧ a.name = ra.name ∧ a.uri = ra.uri
          ∧ collectTracks (fetchTracks s) = .ok a.tracks) := by
  cases hv : validAlbumId s with
  | false =>
    refine ⟨fun _ => ?_, ?_, ?_⟩
    · simp [fetchAlbumInfo, parseAlbumId, hv]
    · simp [fetchAlbumInfo, parseAlbumId, hv, exceptOk]
    · intro a hA
      simp [fetchAlbumInfo, parseAlbumId, hv] at hA
  | true =>
    cases ha : fetchAlbum s with
    | error e =>
      refine ⟨fun hf => absurd hf (by decide), ?_, ?_⟩
      · simp [fetchAlbumInfo, parseAlbumId, hv, ha, exceptOk]
      · intro a hA
        simp [fetchAlbumInfo, parseAlbumId, hv, ha] at hA
    | ok ra =>
      cases hc : collectTracks (fetchTracks s) with
      | error e =>
        refine ⟨fun hf => absurd hf (by decide), ?_, ?_⟩
        · rw [← collectTracks_ok_iff]
          simp [fetchAlbumInfo, parseAlbumId, hv, ha, hc, exceptOk]
        · intro a hA
          simp [fetchAlbumInfo, parseAlbumId, hv, ha, hc] at hA
      | ok ts =>
        refine ⟨fun hf => absurd hf (by decide), ?_, ?_⟩
        · rw [← collectTracks_ok_iff]
          simp [fetchAlbumInfo, parseAlbumId, hv, ha, hc, exceptOk]
        · intro a hA
          have heq : AlbumInfo.mk (String.intercalate ", " ra.artists) ra.name ra.uri ts = a := by
            simpa [fetchAlbumInfo, parseAlbumId, hv, ha, hc] using hA
          subst heq
          exact ⟨ra, rfl, rfl, rfl, rfl, rfl⟩

/-- C4 witness: a malformed identifier fails with the parse error and zero
remote calls even against always-succeeding oracles, and a successful fetch
returns the complete album. -/
theorem fetch_album_all_or_nothing_witness :
    fetchAlbumInfo fetchAlbumOk fetchTracksOk "not an id!"
        = (.error "trying to parse album ID", 0)
    ∧ (∃ ra, fetchAlbumOk "ABC123" = .ok ra
        ∧ albumFetched.artist = String.intercalate ", " ra.artists
        ∧ albumFetched.name = ra.name ∧ albumFetched.uri = ra.uri
        ∧ collectTracks (fetchTracksOk "ABC123") = .ok albumFetched.tracks) :=
  ⟨(fetch_album_all_or_nothing fetchAlbumOk fetchTracksOk "not an id!").1 (by decide),
   (fetch_album_all_or_nothing fetchAlbumOk fetchTracksOk "ABC123").2.2 albumFetched rfl⟩

/-- C10 witness: on the 60s/60s playlist, 60s of elapsed time resolve to the
second track at 0, and 120s resolve to `Finished 0`. -/
theorem resolver_track_boundaries_witness :
    nowPlaying ⟨albumTwo, some 0⟩ 60000 = .Playing trackB 0
    ∧ nowPlaying ⟨albumTwo, some 0⟩ 120000 = .Finished 0 :=
  ⟨(resolver_track_boundaries "Artist" "Album" none [trackA, trackB] 0 60000
      (by decide)).1 1 (by decide) (by decide),
   (resolver_track_boundaries "Artist" "Album" none [trackA, trackB] 0 120000
      (by decide)).2 (by decide)⟩

theorem matchLit_album (rest : List Char) :
    matchLit albumLinkLit (albumLinkChars ++ rest) = some rest := rfl

/-- Lists `l1 ++ c :: l2` split at `c` under `takeWhile`/`dropWhile` when all of
`l1` satisfies the predicate and `c` does not. -/
theorem takeWhile_stop {p : Char → Bool} (c : Char) (hc : p c = false)
    (l2 : List Char) :
    ∀ l1, (∀ x ∈ l1, p x = true) →
      (l1 ++ c :: l2).takeWhile p = l1 ∧ (l1 ++ c :: l2).dropWhile p = c :: l2 := by
  intro l1
  induction l1 with
  | nil =>
    intro _
    simp [List.takeWhile_cons, List.dropWhile_cons, hc]
  | cons a l ih =>
    intro h
    have ha := h a (by simp)
    have hrec := ih (fun x hx => h x (by simp [hx]))
    simp [List.takeWhile_cons, List.dropWhile_cons, ha, hrec.1, hrec.2]

/-- The full pattern matches at the start of
`<literal><alnum id>?<word char><anything>` when the position before it is not
a word character, capturing exactly the id. -/
theorem matchFrom_album (prev : Option Char) (id rest : List Char) (c : Char)
    (hprev : isWordOpt prev = false) (hid : id ≠ [])
    (hall : ∀ x ∈ id, isAlnumAscii x = true) (hc : wordChar c = true) :
    matchFrom prev (albumLinkChars ++ (id ++ '?' :: c :: rest)) = some id := by
  have hhead : (albumLinkChars ++ (id ++ '?' :: c :: rest)).head? = some 'h' := rfl
  have hb : boundaryOk prev (some 'h') = true := by
    unfold boundaryOk
    rw [hprev]
    decide
  have hsplit := takeWhile_stop (p := isAlnumAscii) '?' (by decide) (c :: rest) id hall
  have hq : qStarBoundary '?' (c :: rest) = true := by
    have hbq : boundaryOk (some '?') (some c) = true := by
      simp only [boundaryOk, isWordOpt]
      rw [hc]
      decide
    simp [qStarBoundary, hbq]
  unfold matchFrom
  rw [hhead, hb, if_pos rfl, matchLit_album, Option.some_bind, hsplit.1, hsplit.2]
  cases id with
  | nil => exact absurd rfl hid
  | cons a as =>
    rw [matchIdSplit, hq, if_pos rfl]
    exact fun h => List.noConfusion h

/-- No match can start at a character other than `h`. -/
theorem matchFrom_ne_h (prev : Option Char) (x : Char) (xs : List Char)
    (hx : x ≠ 'h') : matchFrom prev (x :: xs) = none := by
  have hlit : matchLit albumLinkLit (x :: xs) = none := by
    simp only [albumLinkLit, matchLit]
    rw [if_neg (by simpa using hx)]
  unfold matchFrom
  split
  · rw [hlit, Option.none_bind]
  · rfl

/-- A successful match at the current position is what the scan returns. -/
theorem findCapture_of_matchFrom (prev : Option Char) (s : List Char)
    (cap : List Char) (h : matchFrom prev s = some cap) :
    findCapture prev s = some cap := by
  cases s with
  | nil => rw [findCapture, h]
  | cons c cs => rw [findCapture, h]

/-- The leftmost-match scan skips over leading text that contains no `h`. -/
theorem findCapture_skip (lead : List Char) :
    ∀ (prev : Option Char) (s : List Char), (∀ x ∈ lead, x ≠ 'h') →
      findCapture prev (lead ++ s) = findCapture (lastCh prev lead) s := by
  induction lead with
  | nil => intro prev s _; rfl
  | cons x xs ih =>
    intro prev s h
    have hx : x ≠ 'h' := h x (by simp)
    have step : findCapture prev (x :: (xs ++ s)) = findCapture (some x) (xs ++ s) := by
      rw [findCapture, matchFrom_ne_h prev x _ hx]
    rw [List.cons_append, step, ih (some x) s (fun y hy => h y (by simp [hy]))]
    rfl

/-- C1 (amended): a message that passes the trusted-role gate and whose text
is an album link *with a query string* — a literal `?` directly after the
alphanumeric id, here followed by a word character — is matched by the
detector, and exactly the id is the identifier passed to the album fetcher.
(The leading text must contain no `h` and end in a non-word character, so the
link is the leftmost match candidate and starts at a word boundary.) -/
theorem announcement_extracts_id
    (fetch : String → Except String AlbumInfo) (r : Registry) (msg : Msg)
    (lead id rest : List Char) (c : Char)
    (hgate : msg.mention_roles.any (fun role => LP_ROLES.contains role) = true)
    (hcontent : msg.content = String.mk (lead ++ (albumLinkChars ++ (id ++ '?' :: c :: rest))))
    (hlead : ∀ x ∈ lead, x ≠ 'h')
    (hprev : isWordOpt (lastCh none lead) = false)
    (hid : id ≠ []) (hall : ∀ x ∈ id, isAlnumAscii x = true)
    (hc : wordChar c = true) :
    spotifyCaptures msg.content = some (String.mk id)
    ∧ (handleMessage fetch msg r).2 = [String.mk id] := by
  have hcap : spotifyCaptures msg.content = some (String.mk id) := by
    rw [hcontent]
    unfold spotifyCaptures
    rw [show (String.mk (lead ++ (albumLinkChars ++ (id ++ '?' :: c :: rest)))).toList
        = lead ++ (albumLinkChars ++ (id ++ '?' :: c :: rest)) from rfl]
    rw [findCapture_skip lead none _ hlead,
      findCapture_of_matchFrom _ _ id
        (matchFrom_album (lastCh none lead) id rest c hprev hid hall hc)]
    rfl
  refine ⟨hcap, ?_⟩
  unfold handleMessage
  rw [hgate, if_pos rfl, hcap, handleCapture]
  cases fetch (String.mk id) <;> rfl

/-- C1 witness: a trusted-role message with `...album/ABC123?si=xyz` fetches
exactly `ABC123`. -/
theorem announcement_extracts_id_witness :
    spotifyCaptures msgTrusted.content = some "ABC123"
    ∧ (handleMessage fetchFail msgTrusted emptyRegistry).2 = ["ABC123"] :=
  announcement_extracts_id fetchFail emptyRegistry msgTrusted
    "LP: ".toList "ABC123".toList "i=xyz".toList 's'
    (by decide) rfl (by decide) (by decide) (by decide) (by decide) (by decide)

/-- C1 counterexample: a bare album link with no query string — the spec's
scenario — does *not* match the detector's regex (its query group is not
optional), so a trusted-role message containing only that link triggers no
fetch and no registry change. -/
theorem bare_link_not_matched :
    spotifyCaptures "https://open.spotify.com/album/ABC123" = none
    ∧ handleMessage fetchFail msgBare emptyRegistry = (emptyRegistry, []) := by
  constructor
  · decide
  · rfl
